import Mathlib

/-!
Verification of the Scrubby Zoom plugin (`scrubby_zoom.py`): a shallow
embedding of its zoom estimator, drag-to-zoom mapping and input state
machine, with theorems checking the specification's claims.

Modelling conventions:
* Python floats are modelled as real numbers (`ℝ`); float overflow and
  rounding are out of scope.
* Host (Krita/Qt) lookups that may be absent or raise are modelled by a
  `Host` record of `Option`-valued fields, fixed for the duration of one
  handler call (the plugin is single-threaded and event-driven).
* `_zoom_scale_from_ui` is pure host/widget reading plus a regex; its
  result (a parsed percent value, or `none` on any absent or malformed
  text) is modelled by the host field `uiScale`.
* Document identifiers (file paths or synthetic ids in the source) are
  opaque tokens compared by equality, modelled by `ℕ`.
-/

namespace ScrubbyZoom

/-- `REFERENCE_DPI = 72.0` from the source: the historical reference DPI. -/
noncomputable def REFERENCE_DPI : ℝ := 72.0

/-- An opaque host view handle (the code never inspects it, only passes it
to host accessors). -/
structure View where
  vid : ℕ
deriving DecidableEq

/-- Document identifier as produced by `_get_document_id` (a stable file
path or synthetic id; opaque token here). -/
abbrev DocId := ℕ

/-- The per-document zoom cache `document_zoom_cache` (a Python dict),
modelled as a partial map. -/
abbrev ZoomCache := DocId → Option ℝ

/-- The host state visible through the narrow accessors the plugin calls
during one handler run.  `none` models an absent object or a raising call. -/
structure Host where
  /-- `Krita.instance().activeWindow().activeView()`; `none` when the app,
  window or view lookup fails (so `_get_current_view` returns `None`). -/
  currentView : Option View
  /-- whether `Krita.instance().activeDocument()` is truthy -/
  hasDocument : Bool
  /-- result of `_zoom_scale_from_ui` (parsed UI percent / 100, or `none`) -/
  uiScale : Option ℝ
  /-- `float(canvas.zoomLevel())` for the current view; `none` when the
  canvas is absent or the call raises -/
  rawZoom : Option ℝ
  /-- `float(doc.resolution())`; `none` when the document is absent, the
  value non-numeric, or the call raises -/
  docResolution : Option ℝ
  /-- result of `_get_document_id` -/
  docId : Option DocId
  /-- whether `view.canvas()` is truthy and `setZoomLevel` succeeds during
  `update_zoom` -/
  canvasOk : Bool

/-- `_has_active_document`: app, active window, active view and active
document must all be present. -/
def _has_active_document (h : Host) : Bool :=
  h.currentView.isSome && h.hasDocument

/-- `_get_current_view`: the active view, or `None` when unavailable. -/
def _get_current_view (h : Host) : Option View :=
  h.currentView

/-- `_doc_dpi`: the document resolution if the view, document and a
positive numeric resolution are available, else `REFERENCE_DPI`. -/
noncomputable def _doc_dpi (view : Option View) (h : Host) : ℝ :=
  match view, h.docResolution with
  | some _, some dpi => if dpi > 0 then dpi else REFERENCE_DPI
  | _, _ => REFERENCE_DPI

/-- `_canvas_zoom_raw`: raw `canvas.zoomLevel()` (may be DPI-scaled), or
`None` when the view or canvas is unavailable. -/
def _canvas_zoom_raw (view : Option View) (h : Host) : Option ℝ :=
  match view with
  | some _ => h.rawZoom
  | none => none

/-- `_canvas_zoom_corrected`: divide the raw zoom by `dpi / 72` unless that
factor is nonpositive, in which case the raw value is returned unchanged. -/
noncomputable def _canvas_zoom_corrected (raw_zoom : ℝ) (dpi : ℝ) : ℝ :=
  let factor := dpi / REFERENCE_DPI
  if factor ≤ 0 then raw_zoom else raw_zoom / factor

/-- The no-UI heuristic tail of `_get_current_zoom_scale` (lines 331-340):
reached when no positive UI value exists.  When the DPI is farther from 72
than `1e-3`: if `raw > 10` and `corrected ≤ 10`, return `corrected`; else if
`corrected < 0.01` and `raw ≥ 0.01`, return `raw`; else return `corrected`.
When the DPI is within `1e-3` of 72, return `raw`. -/
noncomputable def _zoom_no_ui_heuristic (raw corrected dpi : ℝ) : ℝ :=
  if |dpi - REFERENCE_DPI| > 1e-3 then
    if raw > 10.0 ∧ corrected ≤ 10.0 then corrected
    else if corrected < 0.01 ∧ raw ≥ 0.01 then raw
    else corrected
  else raw

/-- `_get_current_zoom_scale`: best estimate of the current zoom in
ZOOM_CONSTANT scale.  When the raw accessor is unavailable, fall back to
the per-document cache, then the UI value, then `1.0`.  Otherwise compare
raw and corrected against the UI value when a positive one exists, else
apply the no-UI heuristic. -/
noncomputable def _get_current_zoom_scale (view : Option View) (h : Host)
    (cache : ZoomCache) : ℝ :=
  let ui_scale := h.uiScale
  match _canvas_zoom_raw view h with
  | none =>
      match h.docId with
      | some doc_id =>
          match cache doc_id with
          | some c => c
          | none => ui_scale.getD 1.0
      | none => ui_scale.getD 1.0
  | some raw =>
      let dpi := _doc_dpi view h
      let corrected := _canvas_zoom_corrected raw dpi
      match ui_scale with
      | some u =>
          if u > 0 then
            if |corrected - u| ≤ |raw - u| then corrected else raw
          else _zoom_no_ui_heuristic raw corrected dpi
      | none => _zoom_no_ui_heuristic raw corrected dpi

/-- `zoom_sensitivity = 150.0`: pixels of drag per doubling of zoom. -/
noncomputable def zoom_sensitivity : ℝ := 150.0

/-- The extension's session state (`ScrubbyZoomExtension.__init__`). -/
structure ExtState where
  zoom_mode_active : Bool
  is_dragging : Bool
  drag_start_x : ℤ
  active_view : Option View
  initial_zoom_scale : ℝ
  last_set_zoom_scale : Option ℝ
  document_zoom_cache : ZoomCache

/-- The state right after `__init__`. -/
noncomputable def initState : ExtState where
  zoom_mode_active := false
  is_dragging := false
  drag_start_x := 0
  active_view := none
  initial_zoom_scale := 1.0
  last_set_zoom_scale := none
  document_zoom_cache := fun _ => none

/-- `if doc_id: self.document_zoom_cache[doc_id] = v`. -/
def cacheInsert (cache : ZoomCache) (doc_id : Option DocId) (v : ℝ) :
    ZoomCache :=
  match doc_id with
  | some d => fun k => if k = d then some v else cache k
  | none => cache

/-- `activate_zoom_mode`: no-op unless a document is open and the mode is
not already active; otherwise enter ModeActive with cleared drag state. -/
def activate_zoom_mode (h : Host) (s : ExtState) : ExtState :=
  if !_has_active_document h || s.zoom_mode_active then s
  else { s with zoom_mode_active := true, is_dragging := false,
                active_view := none, last_set_zoom_scale := none }

/-- `deactivate_zoom_mode`: no-op when inactive; otherwise clear the mode,
drag flag and active view (cursor restoration is a pure host effect). -/
def deactivate_zoom_mode (s : ExtState) : ExtState :=
  if !s.zoom_mode_active then s
  else { s with zoom_mode_active := false, is_dragging := false,
                active_view := none }

/-- `start_drag`: abort via `deactivate_zoom_mode` when no active document
or no global position; otherwise begin dragging, record the start X and the
active view, query the estimator once, and store its result in the cache,
`initial_zoom_scale` and `last_set_zoom_scale`. -/
noncomputable def start_drag (h : Host) (global_pos : Option ℤ)
    (s : ExtState) : ExtState :=
  if !_has_active_document h || global_pos.isNone then
    deactivate_zoom_mode s
  else
    let gx := global_pos.getD 0
    let view := _get_current_view h
    let zoom_scale := _get_current_zoom_scale view h s.document_zoom_cache
    { s with is_dragging := true
             drag_start_x := gx
             active_view := view
             document_zoom_cache :=
               cacheInsert s.document_zoom_cache h.docId zoom_scale
             initial_zoom_scale := zoom_scale
             last_set_zoom_scale := some zoom_scale }

/-- The drag-to-zoom mapping of `update_zoom` (lines 412-416):
`clamp(initial * 2 ^ (Δx / sensitivity), 0.01, 256.0)`. -/
noncomputable def drag_new_scale (initial : ℝ) (delta_x : ℤ) : ℝ :=
  let zoom_factor := (2.0 : ℝ) ^ ((delta_x : ℝ) / zoom_sensitivity)
  max 0.01 (min 256.0 (initial * zoom_factor))

/-- `update_zoom`: no-op unless dragging with a position, an active view
and a working canvas; otherwise push the clamped new scale to the host and
record it in `last_set_zoom_scale` and the cache. -/
noncomputable def update_zoom (h : Host) (global_pos : Option ℤ)
    (s : ExtState) : ExtState :=
  if !s.is_dragging || global_pos.isNone then s
  else
    match s.active_view with
    | none => s
    | some _ =>
        if !h.canvasOk then s
        else
          let gx := global_pos.getD 0
          let delta_x := gx - s.drag_start_x
          let new_scale := drag_new_scale s.initial_zoom_scale delta_x
          { s with last_set_zoom_scale := some new_scale
                   document_zoom_cache :=
                     cacheInsert s.document_zoom_cache h.docId new_scale }

/-- `end_drag`: stop dragging and drop the view reference. -/
def end_drag (s : ExtState) : ExtState :=
  { s with is_dragging := false, active_view := none }

/-- Mouse buttons as far as the filter distinguishes them. -/
inductive MouseButton where
  | left
  | other
deriving DecidableEq

/-- The event kinds `ZoomEventFilter.eventFilter` inspects, carrying the
data the handler reads (`_event_global_pos` result, auto-repeat flag). -/
inductive Event where
  | mouseButtonPress (button : MouseButton) (global_pos : Option ℤ)
  | mouseMove (global_pos : Option ℤ)
  | mouseButtonRelease (button : MouseButton)
  | keyRelease (isAutoRepeat : Bool)
  | otherEvent

/-- `ZoomEventFilter.eventFilter`: returns the new extension state and
whether the event was consumed (`True` returned to Qt). -/
noncomputable def eventFilter (h : Host) (e : Event) (s : ExtState) :
    ExtState × Bool :=
  if !s.zoom_mode_active then (s, false)
  else
    match e with
    | .mouseButtonPress b pos =>
        if b = MouseButton.left then (start_drag h pos s, true)
        else (s, false)
    | .mouseMove pos =>
        if s.is_dragging then (update_zoom h pos s, true)
        else (s, false)
    | .mouseButtonRelease b =>
        if b = MouseButton.left && s.is_dragging then (end_drag s, true)
        else (s, false)
    | .keyRelease ar =>
        if !ar then (deactivate_zoom_mode s, false)
        else (s, false)
    | .otherEvent => (s, false)

/-- One externally triggered operation: the activation action, an explicit
deactivation, or an event delivered to the installed filter (drags happen
through the filter; the host state is arbitrary at each step). -/
inductive Step : ExtState → ExtState → Prop
  | activate (h : Host) (s : ExtState) : Step s (activate_zoom_mode h s)
  | deactivate (s : ExtState) : Step s (deactivate_zoom_mode s)
  | filtered (h : Host) (e : Event) (s : ExtState) :
      Step s (eventFilter h e s).1

/-- States reachable from the freshly constructed extension. -/
inductive Reachable : ExtState → Prop
  | init : Reachable initState
  | step {s s' : ExtState} : Reachable s → Step s s' → Reachable s'

/-! ## Helper lemmas about the estimator -/

/-- `_doc_dpi` always returns a strictly positive value. -/
theorem _doc_dpi_pos (view : Option View) (h : Host) : 0 < _doc_dpi view h := by
  unfold _doc_dpi
  cases view with
  | none => norm_num [REFERENCE_DPI]
  | some v =>
      cases hres : h.docResolution with
      | none => norm_num [REFERENCE_DPI]
      | some d =>
          by_cases hd : d > 0
          · simp [hd]
          · simp only [hd, if_false]
            norm_num [REFERENCE_DPI]

/-- `_canvas_zoom_corrected` preserves strict positivity of the raw zoom. -/
theorem _canvas_zoom_corrected_pos (raw dpi : ℝ) (hr : 0 < raw) :
    0 < _canvas_zoom_corrected raw dpi := by
  unfold _canvas_zoom_corrected
  by_cases hf : dpi / REFERENCE_DPI ≤ 0
  · simpa [hf] using hr
  · simp only [hf, if_false]
    exact div_pos hr (lt_of_not_le hf)

/-- The no-UI heuristic only ever returns one of its two candidates. -/
theorem _zoom_no_ui_heuristic_cases (raw corrected dpi : ℝ) :
    _zoom_no_ui_heuristic raw corrected dpi = raw ∨
      _zoom_no_ui_heuristic raw corrected dpi = corrected := by
  unfold _zoom_no_ui_heuristic
  split_ifs <;> simp

/-- When the document resolution is a positive `dpi`, `_doc_dpi` returns it. -/
theorem _doc_dpi_of_pos (v : View) (h : Host) (dpi : ℝ)
    (hdpi : h.docResolution = some dpi) (hdpos : 0 < dpi) :
    _doc_dpi (some v) h = dpi := by
  simp [_doc_dpi, hdpi, hdpos]

/-- With a positive `dpi`, the correction is exactly `raw / (dpi / 72)`. -/
theorem _canvas_zoom_corrected_of_pos (raw dpi : ℝ) (hdpos : 0 < dpi) :
    _canvas_zoom_corrected raw dpi = raw / (dpi / REFERENCE_DPI) := by
  have hfac : 0 < dpi / REFERENCE_DPI := by
    apply div_pos hdpos
    norm_num [REFERENCE_DPI]
  simp [_canvas_zoom_corrected, not_le.mpr hfac]

/-! ## C10 -/

/-- C10: if the document DPI is unavailable (or the view is absent) or not
strictly positive, `_doc_dpi` substitutes the reference DPI 72; `_doc_dpi`
is always positive; and whenever `dpi / 72 ≤ 0` the correction step
returns the raw value unchanged instead of dividing. -/
theorem dpi_fallback_and_no_bad_division :
    (∀ (view : Option View) (h : Host),
        (h.docResolution = none ∨ ∃ d, h.docResolution = some d ∧ d ≤ 0) →
        _doc_dpi view h = REFERENCE_DPI) ∧
    (∀ (view : Option View) (h : Host), 0 < _doc_dpi view h) ∧
    (∀ raw dpi : ℝ, dpi / REFERENCE_DPI ≤ 0 →
        _canvas_zoom_corrected raw dpi = raw) := by
  refine ⟨?_, _doc_dpi_pos, ?_⟩
  · intro view h hbad
    unfold _doc_dpi
    cases view with
    | none => rfl
    | some v =>
        rcases hbad with hnone | ⟨d, hd, hle⟩
        · rw [hnone]
        · rw [hd]
          simp [not_lt.mpr hle]
  · intro raw dpi hfac
    simp [_canvas_zoom_corrected, hfac]

/-! ## C7 -/

/-- C7: when the raw zoom accessor is unavailable, the estimator returns
the cached scale for the current document when such an entry exists, else
the UI-observed value when one exists, else exactly `1.0`. -/
theorem raw_unavailable_fallback_chain (view : Option View) (h : Host)
    (cache : ZoomCache) (hraw : _canvas_zoom_raw view h = none) :
    (∀ d c, h.docId = some d → cache d = some c →
        _get_current_zoom_scale view h cache = c) ∧
    ((∀ d, h.docId = some d → cache d = none) →
      (∀ u, h.uiScale = some u → _get_current_zoom_scale view h cache = u) ∧
      (h.uiScale = none → _get_current_zoom_scale view h cache = 1.0)) := by
  constructor
  · intro d c hd hc
    simp [_get_current_zoom_scale, hraw, hd, hc]
  · intro hmiss
    constructor
    · intro u hu
      cases hd : h.docId with
      | none => simp [_get_current_zoom_scale, hraw, hd, hu]
      | some d => simp [_get_current_zoom_scale, hraw, hd, hmiss d hd, hu]
    · intro hu
      cases hd : h.docId with
      | none => simp [_get_current_zoom_scale, hraw, hd, hu]
      | some d => simp [_get_current_zoom_scale, hraw, hd, hmiss d hd, hu]

/-- Host for the C7 witness: no canvas zoom available, a cached entry for
document `0`. -/
noncomputable def hostC7 : Host where
  currentView := none
  hasDocument := true
  uiScale := none
  rawZoom := none
  docResolution := none
  docId := some 0
  canvasOk := true

/-- Cache for the C7 witness: document `0` maps to scale `2`. -/
noncomputable def cacheC7 : ZoomCache := fun k => if k = 0 then some 2 else none

/-- Witness for C7: with the raw accessor unavailable and a cache entry of
`2` for the current document, the estimator returns `2`. -/
theorem raw_unavailable_fallback_chain_witness :
    _get_current_zoom_scale none hostC7 cacheC7 = 2 :=
  (raw_unavailable_fallback_chain none hostC7 cacheC7 rfl).1 0 2 rfl (by
    simp [cacheC7])

/-! ## C5 -/

/-- C5: when a strictly positive UI-observed zoom exists and the raw zoom
is available, the estimator returns whichever of the raw and corrected
values is closer to the UI value, preferring the corrected value when the
two distances are equal. -/
theorem ui_picks_closer_candidate (v : View) (h : Host) (cache : ZoomCache)
    (u raw : ℝ) (hui : h.uiScale = some u) (hupos : 0 < u)
    (hraw : h.rawZoom = some raw) :
    (|_canvas_zoom_corrected raw (_doc_dpi (some v) h) - u| ≤ |raw - u| →
        _get_current_zoom_scale (some v) h cache =
          _canvas_zoom_corrected raw (_doc_dpi (some v) h)) ∧
    (|raw - u| < |_canvas_zoom_corrected raw (_doc_dpi (some v) h) - u| →
        _get_current_zoom_scale (some v) h cache = raw) := by
  constructor
  · intro hle
    simp [_get_current_zoom_scale, _canvas_zoom_raw, hraw, hui, hupos, hle]
  · intro hlt
    simp [_get_current_zoom_scale, _canvas_zoom_raw, hraw, hui, hupos,
      not_le.mpr hlt]

/-- Host for the C5 witness: UI shows 100%, raw zoom is 2, no resolution. -/
noncomputable def hostC5 : Host where
  currentView := some ⟨0⟩
  hasDocument := true
  uiScale := some 1
  rawZoom := some 2
  docResolution := none
  docId := none
  canvasOk := true

/-- Witness for C5: with UI value 1 and raw 2 at the reference DPI the
corrected value equals the raw value, the distances tie, and the estimator
returns the corrected value. -/
theorem ui_picks_closer_candidate_witness :
    _get_current_zoom_scale (some ⟨0⟩) hostC5 (fun _ => none) =
      _canvas_zoom_corrected 2 (_doc_dpi (some ⟨0⟩) hostC5) :=
  (ui_picks_closer_candidate ⟨0⟩ hostC5 (fun _ => none) 1 2 rfl
      (by norm_num) rfl).1 (by
    norm_num [_canvas_zoom_corrected, _doc_dpi, hostC5, REFERENCE_DPI])

/-! ## C1 -/

/-- C1 (amended): with no UI value, a raw zoom available and a positive
document DPI farther than `1e-3` from 72, the estimator returns the raw
value exactly when `corrected < 0.01` and `0.01 ≤ raw ≤ 10.0`; in every
other such case — including `raw > 10.0` with `corrected ≤ 10.0` — it
returns the corrected value `raw / (dpi / 72)`. -/
theorem no_ui_far_dpi_choice (v : View) (h : Host) (cache : ZoomCache)
    (raw dpi : ℝ) (hui : h.uiScale = none) (hraw : h.rawZoom = some raw)
    (hdpi : h.docResolution = some dpi) (hdpos : 0 < dpi)
    (hfar : |dpi - REFERENCE_DPI| > 1e-3) :
    (raw / (dpi / REFERENCE_DPI) < 0.01 ∧ 0.01 ≤ raw ∧ raw ≤ 10.0 →
        _get_current_zoom_scale (some v) h cache = raw) ∧
    (¬(raw / (dpi / REFERENCE_DPI) < 0.01 ∧ 0.01 ≤ raw ∧ raw ≤ 10.0) →
        _get_current_zoom_scale (some v) h cache =
          raw / (dpi / REFERENCE_DPI)) := by
  have hd := _doc_dpi_of_pos v h dpi hdpi hdpos
  have hc := _canvas_zoom_corrected_of_pos raw dpi hdpos
  have hest : _get_current_zoom_scale (some v) h cache =
      _zoom_no_ui_heuristic raw (raw / (dpi / REFERENCE_DPI)) dpi := by
    simp [_get_current_zoom_scale, _canvas_zoom_raw, hraw, hui, hd, hc]
  rw [hest]
  unfold _zoom_no_ui_heuristic
  rw [if_pos hfar]
  constructor
  · rintro ⟨h1, h2, h3⟩
    rw [if_neg, if_pos ⟨h1, h2⟩]
    rintro ⟨hr10, _⟩
    exact absurd h3 (not_le.mpr hr10)
  · intro hn
    by_cases g1 : raw > 10.0 ∧ raw / (dpi / REFERENCE_DPI) ≤ 10.0
    · rw [if_pos g1]
    · rw [if_neg g1]
      by_cases g2 : raw / (dpi / REFERENCE_DPI) < 0.01 ∧ raw ≥ 0.01
      · exfalso
        apply hn
        refine ⟨g2.1, g2.2, ?_⟩
        by_contra hr
        push_neg at hr
        exact g1 ⟨hr, le_trans (le_of_lt g2.1) (by norm_num)⟩
      · rw [if_neg g2]

/-- Host for the C1 counterexample: no UI value, raw zoom 20, DPI 288. -/
noncomputable def hostC1cex : Host where
  currentView := some ⟨0⟩
  hasDocument := true
  uiScale := none
  rawZoom := some 20
  docResolution := some 288
  docId := none
  canvasOk := true

/-- Counterexample to C1 as stated: with raw = 20 > 10 and
corrected = 20 / (288/72) = 5 ≤ 10, the estimator returns the corrected
value 5, not the raw value 20 the claim requires it to keep. -/
theorem no_ui_far_dpi_choice_cex :
    _get_current_zoom_scale (some ⟨0⟩) hostC1cex (fun _ => none) = 5 ∧
      (5 : ℝ) ≠ 20 := by
  constructor
  · have hd : _doc_dpi (some ⟨0⟩) hostC1cex = 288 := by
      rw [_doc_dpi_of_pos ⟨0⟩ hostC1cex 288 rfl (by norm_num)]
    have hc : _canvas_zoom_corrected 20 288 = 5 := by
      rw [_canvas_zoom_corrected_of_pos 20 288 (by norm_num)]
      norm_num [REFERENCE_DPI]
    have hest : _get_current_zoom_scale (some ⟨0⟩) hostC1cex (fun _ => none) =
        _zoom_no_ui_heuristic 20 5 288 := by
      simp [_get_current_zoom_scale, _canvas_zoom_raw,
        show hostC1cex.rawZoom = some 20 from rfl,
        show hostC1cex.uiScale = none from rfl, hd, hc]
    rw [hest]
    unfold _zoom_no_ui_heuristic
    rw [if_pos (by norm_num [REFERENCE_DPI]), if_pos (by norm_num)]
  · norm_num

/-- Host for the C1 witness: no UI value, raw zoom 1, DPI 144. -/
noncomputable def hostC1wit : Host where
  currentView := some ⟨0⟩
  hasDocument := true
  uiScale := none
  rawZoom := some 1
  docResolution := some 144
  docId := none
  canvasOk := true

/-- Witness for C1 (amended): with raw 1 at DPI 144 the raw-keeping
condition fails, so the estimator returns the corrected value
`1 / (144 / 72)`. -/
theorem no_ui_far_dpi_choice_witness :
    _get_current_zoom_scale (some ⟨0⟩) hostC1wit (fun _ => none) =
      1 / (144 / REFERENCE_DPI) :=
  (no_ui_far_dpi_choice ⟨0⟩ hostC1wit (fun _ => none) 1 144 rfl rfl rfl
      (by norm_num) (by norm_num [REFERENCE_DPI])).2
    (by norm_num [REFERENCE_DPI])

/-! ## C2 -/

/-- C2 (amended): the estimator — a total function in this model, so it
cannot raise — returns a strictly positive value whenever every host input
it may consume is positive: the raw zoom when available, every cache
entry, and the UI value when present. -/
theorem estimator_positive (view : Option View) (h : Host)
    (cache : ZoomCache)
    (hraw : ∀ r, h.rawZoom = some r → 0 < r)
    (hcache : ∀ k v, cache k = some v → 0 < v)
    (hui : ∀ u, h.uiScale = some u → 0 < u) :
    0 < _get_current_zoom_scale view h cache := by
  have hr0 : ∀ r, _canvas_zoom_raw view h = some r → 0 < r := by
    intro r hh
    cases view with
    | none => simp [_canvas_zoom_raw] at hh
    | some v => exact hraw r hh
  unfold _get_current_zoom_scale
  cases hcr : _canvas_zoom_raw view h with
  | none =>
      cases hd : h.docId with
      | none =>
          cases hu : h.uiScale with
          | none => norm_num
          | some u => simpa using hui u hu
      | some d =>
          cases hc : cache d with
          | none =>
              cases hu : h.uiScale with
              | none => simp [hc]; norm_num
              | some u => simp [hc]; exact hui u hu
          | some c => simpa [hc] using hcache d c hc
  | some raw =>
      have hrawpos : 0 < raw := hr0 raw hcr
      have hcorpos :
          0 < _canvas_zoom_corrected raw (_doc_dpi view h) :=
        _canvas_zoom_corrected_pos raw (_doc_dpi view h) hrawpos
      have hheur :
          0 < _zoom_no_ui_heuristic raw
              (_canvas_zoom_corrected raw (_doc_dpi view h))
              (_doc_dpi view h) := by
        rcases _zoom_no_ui_heuristic_cases raw
            (_canvas_zoom_corrected raw (_doc_dpi view h))
            (_doc_dpi view h) with he | he <;> rw [he]
        · exact hrawpos
        · exact hcorpos
      cases hu : h.uiScale with
      | none => simpa using hheur
      | some u =>
          by_cases hup : u > 0
          · simp only [hup, if_true]
            split_ifs
            · exact hcorpos
            · exact hrawpos
          · simpa [hup] using hheur

/-- Host for the C2 counterexample: raw zoom 0, no UI, no resolution. -/
noncomputable def hostC2cex : Host where
  currentView := some ⟨0⟩
  hasDocument := true
  uiScale := none
  rawZoom := some 0
  docResolution := none
  docId := none
  canvasOk := true

/-- Counterexample to C2 as stated: with a raw zoom of 0 at the reference
DPI, the estimator returns 0, which is not strictly positive. -/
theorem estimator_positive_cex :
    _get_current_zoom_scale (some ⟨0⟩) hostC2cex (fun _ => none) = 0 ∧
      ¬(0 : ℝ) < 0 := by
  refine ⟨?_, by norm_num⟩
  have hd : _doc_dpi (some ⟨0⟩) hostC2cex = REFERENCE_DPI := by
    simp [_doc_dpi, hostC2cex]
  have hest : _get_current_zoom_scale (some ⟨0⟩) hostC2cex (fun _ => none) =
      _zoom_no_ui_heuristic 0 (_canvas_zoom_corrected 0 REFERENCE_DPI)
        REFERENCE_DPI := by
    simp [_get_current_zoom_scale, _canvas_zoom_raw,
      show hostC2cex.rawZoom = some 0 from rfl,
      show hostC2cex.uiScale = none from rfl, hd]
  rw [hest]
  unfold _zoom_no_ui_heuristic
  rw [if_neg (by norm_num)]

/-- Host for the C2 witness: raw zoom 1, everything else absent. -/
noncomputable def hostC2wit : Host where
  currentView := some ⟨0⟩
  hasDocument := true
  uiScale := none
  rawZoom := some 1
  docResolution := none
  docId := none
  canvasOk := true

/-- Witness for C2 (amended): with raw zoom 1 and an empty cache the
estimator returns a strictly positive value. -/
theorem estimator_positive_witness :
    0 < _get_current_zoom_scale (some ⟨0⟩) hostC2wit (fun _ => none) :=
  estimator_positive (some ⟨0⟩) hostC2wit (fun _ => none)
    (by
      intro r hr
      simp [hostC2wit] at hr
      simp [← hr])
    (by intro k v hv; simp at hv)
    (by intro u hu; simp [hostC2wit] at hu)

/-! ## State machine invariants -/

/-- The session-state invariant: dragging only happens with the mode
active and a captured view, and an inactive mode has no drag in flight and
no retained view. -/
def StateInv (s : ExtState) : Prop :=
  (s.is_dragging = true → s.zoom_mode_active = true ∧ s.active_view ≠ none) ∧
  (s.zoom_mode_active = false → s.is_dragging = false ∧ s.active_view = none)

theorem stateInv_init : StateInv initState := by
  simp [StateInv, initState]

theorem stateInv_deactivate (s : ExtState) (hs : StateInv s) :
    StateInv (deactivate_zoom_mode s) := by
  unfold deactivate_zoom_mode
  by_cases hm : s.zoom_mode_active = true
  · simp [hm, StateInv]
  · simpa [hm] using hs

theorem stateInv_activate (h : Host) (s : ExtState) (hs : StateInv s) :
    StateInv (activate_zoom_mode h s) := by
  unfold activate_zoom_mode
  split_ifs with hc
  · exact hs
  · simp [StateInv]

theorem stateInv_end_drag (s : ExtState) : StateInv (end_drag s) := by
  simp [StateInv, end_drag]

/-- `update_zoom` leaves the mode, drag flag, view, start X and initial
scale untouched. -/
theorem update_zoom_frame (h : Host) (pos : Option ℤ) (s : ExtState) :
    (update_zoom h pos s).zoom_mode_active = s.zoom_mode_active ∧
    (update_zoom h pos s).is_dragging = s.is_dragging ∧
    (update_zoom h pos s).active_view = s.active_view ∧
    (update_zoom h pos s).drag_start_x = s.drag_start_x ∧
    (update_zoom h pos s).initial_zoom_scale = s.initial_zoom_scale := by
  unfold update_zoom
  cases hv : s.active_view <;> split_ifs <;> simp [hv]

theorem stateInv_update (h : Host) (pos : Option ℤ) (s : ExtState)
    (hs : StateInv s) : StateInv (update_zoom h pos s) := by
  obtain ⟨e1, e2, e3, _, _⟩ := update_zoom_frame h pos s
  unfold StateInv at hs ⊢
  rw [e1, e2, e3]
  exact hs

/-- Fields of a successful `start_drag` (active document, position known). -/
theorem start_drag_success_fields (h : Host) (gx : ℤ) (s : ExtState)
    (hdoc : _has_active_document h = true) :
    (start_drag h (some gx) s).is_dragging = true ∧
    (start_drag h (some gx) s).zoom_mode_active = s.zoom_mode_active ∧
    (start_drag h (some gx) s).active_view = _get_current_view h ∧
    (start_drag h (some gx) s).drag_start_x = gx ∧
    (start_drag h (some gx) s).initial_zoom_scale =
      _get_current_zoom_scale (_get_current_view h) h
        s.document_zoom_cache ∧
    (start_drag h (some gx) s).last_set_zoom_scale =
      some (_get_current_zoom_scale (_get_current_view h) h
        s.document_zoom_cache) ∧
    (start_drag h (some gx) s).document_zoom_cache =
      cacheInsert s.document_zoom_cache h.docId
        (_get_current_zoom_scale (_get_current_view h) h
          s.document_zoom_cache) := by
  unfold start_drag
  rw [if_neg (by simp [hdoc])]
  simp

theorem stateInv_start_drag (h : Host) (pos : Option ℤ) (s : ExtState)
    (hm : s.zoom_mode_active = true) (hs : StateInv s) :
    StateInv (start_drag h pos s) := by
  unfold start_drag
  split_ifs with hc
  · exact stateInv_deactivate s hs
  · have hdoc : _has_active_document h = true := by
      by_contra hdn
      have hdf : _has_active_document h = false := by simpa using hdn
      exact hc (by simp [hdf])
    have hview : h.currentView ≠ none := by
      intro hn
      unfold _has_active_document at hdoc
      rw [hn] at hdoc
      simp at hdoc
    constructor
    · intro _
      exact ⟨hm, by simpa [_get_current_view] using hview⟩
    · intro hmf
      rw [hm] at hmf
      exact absurd hmf (by simp)

/-- When the mode is inactive the filter consumes nothing and changes
nothing. -/
theorem eventFilter_when_off (h : Host) (e : Event) (s : ExtState)
    (hm : s.zoom_mode_active = false) : eventFilter h e s = (s, false) := by
  simp [eventFilter, hm]

theorem stateInv_eventFilter (h : Host) (e : Event) (s : ExtState)
    (hs : StateInv s) : StateInv (eventFilter h e s).1 := by
  by_cases hm : s.zoom_mode_active = true
  · unfold eventFilter
    rw [if_neg (by simp [hm])]
    cases e with
    | mouseButtonPress b pos =>
        by_cases hb : b = MouseButton.left
        · simp only [hb, if_true]
          exact stateInv_start_drag h pos s hm hs
        · simpa [hb] using hs
    | mouseMove pos =>
        by_cases hd : s.is_dragging = true
        · simp only [hd, if_true]
          exact stateInv_update h pos s hs
        · simpa [hd] using hs
    | mouseButtonRelease b =>
        by_cases hbr : (b = MouseButton.left && s.is_dragging) = true
        · simp only [hbr, if_true]
          exact stateInv_end_drag s
        · simpa [hbr] using hs
    | keyRelease ar =>
        cases ar with
        | true => simpa using hs
        | false => simpa using stateInv_deactivate s hs
    | otherEvent => simpa using hs
  · have hm' : s.zoom_mode_active = false := by simpa using hm
    rw [eventFilter_when_off h e s hm']
    exact hs

/-- Every `Step` preserves the invariant. -/
theorem stateInv_step {s t : ExtState} (hstep : Step s t) :
    StateInv s → StateInv t := by
  cases hstep with
  | activate h s => exact stateInv_activate h s
  | deactivate s => exact stateInv_deactivate s
  | filtered h e s => exact stateInv_eventFilter h e s

/-- Every reachable session state satisfies the invariant. -/
theorem reachable_stateInv {s : ExtState} (hs : Reachable s) : StateInv s := by
  induction hs with
  | init => exact stateInv_init
  | step _ hstep ih => exact stateInv_step hstep ih

/-! ## C4 -/

/-- C4: in every state reachable by activation commands, filtered events
and drag operations, `dragging` implies that the mode is active and a view
is held. -/
theorem dragging_implies_mode_and_view (s : ExtState) (hs : Reachable s)
    (hd : s.is_dragging = true) :
    s.zoom_mode_active = true ∧ s.active_view ≠ none :=
  (reachable_stateInv hs).1 hd

/-- Host for the reachable-drag witnesses: a document and view exist but
no zoom sources do. -/
noncomputable def hostDrag : Host where
  currentView := some ⟨0⟩
  hasDocument := true
  uiScale := none
  rawZoom := none
  docResolution := none
  docId := none
  canvasOk := true

/-- The state after activating the mode from the initial state. -/
noncomputable def stateModeOn : ExtState := activate_zoom_mode hostDrag initState

/-- The state after a left-button press in `stateModeOn`: dragging. -/
noncomputable def stateDragging : ExtState :=
  (eventFilter hostDrag
    (Event.mouseButtonPress MouseButton.left (some 0)) stateModeOn).1

theorem stateModeOn_mode : stateModeOn.zoom_mode_active = true := by
  unfold stateModeOn activate_zoom_mode
  rw [if_neg (by simp [_has_active_document, hostDrag, initState])]

theorem stateDragging_def :
    stateDragging = start_drag hostDrag (some 0) stateModeOn := by
  unfold stateDragging eventFilter
  rw [if_neg (by simp [stateModeOn_mode])]
  simp

theorem stateDragging_dragging : stateDragging.is_dragging = true := by
  rw [stateDragging_def]
  exact (start_drag_success_fields hostDrag 0 stateModeOn rfl).1

theorem reachable_stateDragging : Reachable stateDragging :=
  Reachable.step
    (Reachable.step Reachable.init (Step.activate hostDrag initState))
    (Step.filtered hostDrag
      (Event.mouseButtonPress MouseButton.left (some 0)) stateModeOn)

/-- Witness for C4: a concrete reachable dragging state has the mode
active and a view held. -/
theorem dragging_implies_mode_and_view_witness :
    stateDragging.zoom_mode_active = true ∧ stateDragging.active_view ≠ none :=
  dragging_implies_mode_and_view stateDragging reachable_stateDragging
    stateDragging_dragging

/-! ## C8 -/

/-- C8: a non-auto-repeated key release while the mode is active (also
while dragging) moves the state to Idle — mode off, drag off, view
cleared, the event itself not consumed — and from then on the filter
consumes no event and changes no state until the mode is re-activated. -/
theorem keyrelease_goes_idle (h : Host) (s : ExtState)
    (hm : s.zoom_mode_active = true) :
    ((eventFilter h (Event.keyRelease false) s).1.zoom_mode_active = false ∧
     (eventFilter h (Event.keyRelease false) s).1.is_dragging = false ∧
     (eventFilter h (Event.keyRelease false) s).1.active_view = none ∧
     (eventFilter h (Event.keyRelease false) s).2 = false) ∧
    ∀ (h' : Host) (e : Event),
      eventFilter h' e (eventFilter h (Event.keyRelease false) s).1 =
        ((eventFilter h (Event.keyRelease false) s).1, false) := by
  have hkr : eventFilter h (Event.keyRelease false) s =
      (deactivate_zoom_mode s, false) := by
    unfold eventFilter
    rw [if_neg (by simp [hm])]
    simp
  have hda : (deactivate_zoom_mode s).zoom_mode_active = false ∧
      (deactivate_zoom_mode s).is_dragging = false ∧
      (deactivate_zoom_mode s).active_view = none := by
    unfold deactivate_zoom_mode
    rw [if_neg (by simp [hm])]
    simp
  rw [hkr]
  exact ⟨⟨hda.1, hda.2.1, hda.2.2, rfl⟩,
    fun h' e => eventFilter_when_off h' e _ hda.1⟩

/-- A concrete mode-active state for the C8 witness. -/
noncomputable def stateC8 : ExtState where
  zoom_mode_active := true
  is_dragging := false
  drag_start_x := 0
  active_view := none
  initial_zoom_scale := 1.0
  last_set_zoom_scale := none
  document_zoom_cache := fun _ => none

/-- Witness for C8 at a concrete mode-active state and host. -/
theorem keyrelease_goes_idle_witness :
    (((eventFilter hostDrag (Event.keyRelease false) stateC8).1.zoom_mode_active
        = false ∧
      (eventFilter hostDrag (Event.keyRelease false) stateC8).1.is_dragging
        = false ∧
      (eventFilter hostDrag (Event.keyRelease false) stateC8).1.active_view
        = none ∧
      (eventFilter hostDrag (Event.keyRelease false) stateC8).2 = false) ∧
    ∀ (h' : Host) (e : Event),
      eventFilter h' e (eventFilter hostDrag (Event.keyRelease false) stateC8).1
        = ((eventFilter hostDrag (Event.keyRelease false) stateC8).1, false)) :=
  keyrelease_goes_idle hostDrag stateC8 rfl

/-! ## C9 -/

/-- C9: invoking `start_drag` from a reachable state with no active
document or no obtainable global position aborts (the model is total, so
nothing can be raised), begins no drag, and forces the deactivated Idle
state. -/
theorem start_drag_failure_goes_idle (h : Host) (pos : Option ℤ)
    (s : ExtState) (hs : Reachable s)
    (hfail : _has_active_document h = false ∨ pos = none) :
    (start_drag h pos s).zoom_mode_active = false ∧
    (start_drag h pos s).is_dragging = false ∧
    (start_drag h pos s).active_view = none := by
  have hcond : (!_has_active_document h || pos.isNone) = true := by
    rcases hfail with hf | hf <;> simp [hf]
  have hsd : start_drag h pos s = deactivate_zoom_mode s := by
    unfold start_drag
    rw [if_pos hcond]
  rw [hsd]
  by_cases hm : s.zoom_mode_active = true
  · unfold deactivate_zoom_mode
    rw [if_neg (by simp [hm])]
    simp
  · have hm' : s.zoom_mode_active = false := by simpa using hm
    have hinv := (reachable_stateInv hs).2 hm'
    unfold deactivate_zoom_mode
    rw [if_pos (by simp [hm'])]
    exact ⟨hm', hinv.1, hinv.2⟩

/-- Host for the C9 witness: no window, view or document at all. -/
noncomputable def hostC9 : Host where
  currentView := none
  hasDocument := false
  uiScale := none
  rawZoom := none
  docResolution := none
  docId := none
  canvasOk := false

/-- Witness for C9: `start_drag` from the initial state with no active
document leaves the machine deactivated with no drag. -/
theorem start_drag_failure_goes_idle_witness :
    (start_drag hostC9 (some 0) initState).zoom_mode_active = false ∧
    (start_drag hostC9 (some 0) initState).is_dragging = false ∧
    (start_drag hostC9 (some 0) initState).active_view = none :=
  start_drag_failure_goes_idle hostC9 (some 0) initState Reachable.init
    (Or.inl rfl)

/-! ## C3 -/

/-- The range claim of C3: every scale in the session state and in the
per-document cache lies in `[0.01, 256.0]`. -/
def ScalesInRange (s : ExtState) : Prop :=
  (0.01 ≤ s.initial_zoom_scale ∧ s.initial_zoom_scale ≤ 256.0) ∧
  (∀ w, s.last_set_zoom_scale = some w → 0.01 ≤ w ∧ w ≤ 256.0) ∧
  (∀ k w, s.document_zoom_cache k = some w → 0.01 ≤ w ∧ w ≤ 256.0)

/-- Host for the C3 counterexample: a raw zoom of 1000 at the reference
DPI, no UI value, document id 0. -/
noncomputable def hostC3 : Host where
  currentView := some ⟨0⟩
  hasDocument := true
  uiScale := none
  rawZoom := some 1000
  docResolution := none
  docId := some 0
  canvasOk := true

/-- The state after activating the mode with `hostC3` present. -/
noncomputable def stateC3on : ExtState := activate_zoom_mode hostC3 initState

/-- The state after a left press with `hostC3`: `start_drag` has stored
the estimator's unclamped result. -/
noncomputable def stateC3 : ExtState :=
  (eventFilter hostC3
    (Event.mouseButtonPress MouseButton.left (some 0)) stateC3on).1

theorem stateC3on_mode : stateC3on.zoom_mode_active = true := by
  unfold stateC3on activate_zoom_mode
  rw [if_neg (by simp [_has_active_document, hostC3, initState])]

theorem stateC3on_cache :
    stateC3on.document_zoom_cache = fun _ => none := by
  unfold stateC3on activate_zoom_mode
  rw [if_neg (by simp [_has_active_document, hostC3, initState])]
  rfl

theorem reachable_stateC3 : Reachable stateC3 :=
  Reachable.step
    (Reachable.step Reachable.init (Step.activate hostC3 initState))
    (Step.filtered hostC3
      (Event.mouseButtonPress MouseButton.left (some 0)) stateC3on)

/-- The estimator on `hostC3` returns the raw value 1000 unmodified (DPI
is at the reference, no UI value). -/
theorem estimator_hostC3 :
    _get_current_zoom_scale (_get_current_view hostC3) hostC3
      (fun _ => none) = 1000 := by
  have hd : _doc_dpi (some ⟨0⟩) hostC3 = REFERENCE_DPI := by
    simp [_doc_dpi, show hostC3.docResolution = none from rfl]
  have hheur : _zoom_no_ui_heuristic 1000
      (_canvas_zoom_corrected 1000 REFERENCE_DPI) REFERENCE_DPI = 1000 := by
    unfold _zoom_no_ui_heuristic
    rw [if_neg (by norm_num)]
  simp [_get_current_view, _get_current_zoom_scale, _canvas_zoom_raw,
    show hostC3.currentView = some ⟨0⟩ from rfl,
    show hostC3.rawZoom = some 1000 from rfl,
    show hostC3.uiScale = none from rfl, hd, hheur]

theorem stateC3_initial_scale : stateC3.initial_zoom_scale = 1000 := by
  unfold stateC3 eventFilter
  rw [if_neg (by simp [stateC3on_mode])]
  simp only [if_true, reduceIte]
  rw [(start_drag_success_fields hostC3 0 stateC3on rfl).2.2.2.2.1,
    stateC3on_cache, estimator_hostC3]

/-- Counterexample to C3 as stated: a reachable state whose
`initial_scale` is 1000, far outside `[0.01, 256.0]` (the scale `start_drag`
stores is the estimator's output, which is never clamped). -/
theorem scales_in_range_cex :
    Reachable stateC3 ∧ stateC3.initial_zoom_scale = 1000 ∧
      ¬ScalesInRange stateC3 := by
  refine ⟨reachable_stateC3, stateC3_initial_scale, ?_⟩
  intro hr
  have := hr.1.2
  rw [stateC3_initial_scale] at this
  norm_num at this

/-- C3 (amended): the drag-to-zoom mapping always produces a scale in
`[0.01, 256.0]`, and `update_zoom` writes only such clamped values to
`last_set_zoom_scale` and the cache (a `start_drag`, by contrast, may
store an unclamped estimator output). -/
theorem drag_mapping_clamped :
    (∀ (initial : ℝ) (dx : ℤ),
        0.01 ≤ drag_new_scale initial dx ∧
          drag_new_scale initial dx ≤ 256.0) ∧
    (∀ (h : Host) (pos : Option ℤ) (s : ExtState),
        ((update_zoom h pos s).last_set_zoom_scale =
            s.last_set_zoom_scale ∨
          ∃ w, (update_zoom h pos s).last_set_zoom_scale = some w ∧
            0.01 ≤ w ∧ w ≤ 256.0) ∧
        (∀ k, (update_zoom h pos s).document_zoom_cache k =
              s.document_zoom_cache k ∨
          ∃ w, (update_zoom h pos s).document_zoom_cache k = some w ∧
            0.01 ≤ w ∧ w ≤ 256.0)) := by
  have hb : ∀ (initial : ℝ) (dx : ℤ),
      0.01 ≤ drag_new_scale initial dx ∧
        drag_new_scale initial dx ≤ 256.0 := by
    intro initial dx
    unfold drag_new_scale
    exact ⟨le_max_left _ _, max_le (by norm_num) (min_le_left _ _)⟩
  refine ⟨hb, ?_⟩
  intro h pos s
  unfold update_zoom
  cases hv : s.active_view with
  | none =>
      split_ifs <;> exact ⟨Or.inl rfl, fun k => Or.inl rfl⟩
  | some v =>
      split_ifs with h1 h2
      · exact ⟨Or.inl rfl, fun k => Or.inl rfl⟩
      · exact ⟨Or.inl rfl, fun k => Or.inl rfl⟩
      · constructor
        · exact Or.inr ⟨_, rfl, hb _ _⟩
        · intro k
          unfold cacheInsert
          cases hid : h.docId with
          | none => exact Or.inl rfl
          | some d =>
              by_cases hk : k = d
              · refine Or.inr ⟨drag_new_scale s.initial_zoom_scale
                  (pos.getD 0 - s.drag_start_x), ?_, hb _ _⟩
                simp [hk]
              · exact Or.inl (by simp [hk])

/-! ## C6 -/

/-- Counterexample to C6 as stated: with `initial_scale = 1000` (such
unclamped values do occur, see the C3 counterexample) a zero displacement
yields the clamp bound 256, not the initial scale. -/
theorem drag_zero_dx_cex :
    drag_new_scale 1000 0 = 256.0 ∧ (256.0 : ℝ) ≠ 1000 := by
  constructor
  · unfold drag_new_scale
    have h0 : ((0 : ℤ) : ℝ) / zoom_sensitivity = 0 := by
      norm_num
    rw [h0, Real.rpow_zero]
    show max 0.01 (min 256.0 ((1000 : ℝ) * 1)) = 256.0
    rw [mul_one, min_eq_left (by norm_num), max_eq_right (by norm_num)]
  · norm_num

/-- C6 (amended): for every `initial_scale` already in `[0.01, 256.0]`,
the drag-to-zoom mapping at displacement 0 returns it exactly. -/
theorem drag_zero_dx_identity (initial : ℝ) (h1 : 0.01 ≤ initial)
    (h2 : initial ≤ 256.0) : drag_new_scale initial 0 = initial := by
  unfold drag_new_scale
  have h0 : ((0 : ℤ) : ℝ) / zoom_sensitivity = 0 := by
    norm_num
  rw [h0, Real.rpow_zero]
  show max 0.01 (min 256.0 (initial * 1)) = initial
  rw [mul_one, min_eq_right h2, max_eq_right h1]

/-- Witness for C6 (amended) at `initial_scale = 1`. -/
theorem drag_zero_dx_identity_witness : drag_new_scale 1 0 = 1 :=
  drag_zero_dx_identity 1 (by norm_num) (by norm_num)

end ScrubbyZoom
